import Mathlib

/-!
Shallow embedding of the valuation engine of `Intrinsic-value-app.py`:
the business classifier, the three valuation-model formulas (two-stage
DCF, EPV, justified P/B), the winsorization helper and the blending
engine.  Python floats are modelled as exact rationals (`ℚ`), Python
`None` as `Option.none`, and dictionary text fields as optional strings.
-/

/-- Lowercase a string into its list of characters (Python `.lower()`). -/
def lowerStr (s : String) : List Char := s.data.map Char.toLower

/-- Does `hay` start with `pat`?  Building block for substring search. -/
def listStartsWith : List Char → List Char → Bool
  | _, [] => true
  | [], _ :: _ => false
  | h :: hs, p :: ps => (h == p) && listStartsWith hs ps

/-- Python's `pat in hay` substring containment on character lists. -/
def listContains : List Char → List Char → Bool
  | [], pat => listStartsWith [] pat
  | hay@(_ :: hs), pat => listStartsWith hay pat || listContains hs pat

/-- `needle in hay` for an already-lowercased haystack. -/
def containsSub (hay : List Char) (needle : String) : Bool :=
  listContains hay needle.data

/-- Python truthiness chain `a or b or ... or ""` over optional strings:
the first operand that is neither `None` nor the empty string. -/
def firstNonEmpty : List (Option String) → String
  | [] => ""
  | none :: rest => firstNonEmpty rest
  | some s :: rest => if s = "" then firstNonEmpty rest else s

/-- The fields of the provider `info` dict read by `classify_business`. -/
structure TickerInfo where
  sector : Option String
  industry : Option String
  longName : Option String
  shortName : Option String

/-- `fin_keywords` of `classify_business` (line 133). -/
def fin_keywords : List String :=
  ["bank", "nbfc", "financial", "insurance", "lending", "capital markets"]

/-- `cyc_keywords` of `classify_business` (line 134). -/
def cyc_keywords : List String :=
  ["energy", "oil", "gas", "coal", "metals", "mining", "steel", "basic materials", "materials"]

/-- `asset_light_keywords` of `classify_business` (line 135). -/
def asset_light_keywords : List String :=
  ["software", "it services", "technology", "internet", "services"]

/-- The first (FINANCIAL) condition of `classify_business` (line 137):
a financial keyword in the industry text, or "financial" in the sector
text, or "bank" in the (long or short) company name. -/
def fin_trigger (industry sector longname : List Char) : Bool :=
  fin_keywords.any (fun k => containsSub industry k)
    || containsSub sector "financial"
    || containsSub longname "bank"

/-- The second (CYCLICAL) condition of `classify_business` (line 139). -/
def cyc_trigger (sector industry : List Char) : Bool :=
  cyc_keywords.any (fun k => containsSub sector k)
    || cyc_keywords.any (fun k => containsSub industry k)

/-- The third (ASSET_LIGHT) condition of `classify_business` (line 141). -/
def asset_light_trigger (sector industry : List Char) : Bool :=
  asset_light_keywords.any (fun k => containsSub sector k)
    || asset_light_keywords.any (fun k => containsSub industry k)

/-- `classify_business` (lines 128-143): case-insensitive keyword routing
to one of the four archetypes, financial check first. -/
def classify_business (info : TickerInfo) : String :=
  let sector := lowerStr (firstNonEmpty [info.sector])
  let industry := lowerStr (firstNonEmpty [info.industry])
  let longname := lowerStr (firstNonEmpty [info.longName, info.shortName])
  if fin_trigger industry sector longname then "FINANCIAL"
  else if cyc_trigger sector industry then "CYCLICAL"
  else if asset_light_trigger sector industry then "ASSET_LIGHT"
  else "GENERAL"

/-- `np.clip`-style clamping used by `_winsorize`: `min(max(x, lo), hi)`. -/
def clip (lo hi x : ℚ) : ℚ := min (max x lo) hi

/-- `np.quantile(v, q)` with the default linear interpolation: sort
ascending, take `h = q*(n-1)`, and interpolate between the neighbours
of position `h`. -/
def quantileLinear (l : List ℚ) (q : ℚ) : ℚ :=
  let s := List.insertionSort (fun a b => a ≤ b) l
  let h : ℚ := q * ((s.length : ℚ) - 1)
  let i : ℕ := (⌊h⌋).toNat
  let lo := s.getD i 0
  let hi := s.getD (i + 1) lo
  lo + (h - (i : ℚ)) * (hi - lo)

/-- `_winsorize` (lines 112-125).  The blending engine calls it on the
list of surviving model values, which are all present and finite, so the
`None`/finiteness filter of the Python code is the identity here: with
fewer than 2 values the list is returned unchanged, otherwise every
value is clipped to the `[lo, hi]` quantile range of the list. -/
def _winsorize (vals : List ℚ) (lo hi : ℚ) : List ℚ :=
  if vals.length < 2 then vals
  else
    let qlo := quantileLinear vals lo
    let qhi := quantileLinear vals hi
    vals.map (fun x => clip qlo qhi x)

/-- The intermediate-quantity trace returned by `dcf_two_stage_per_share`
(lines 270-283). -/
structure DcfDetails where
  fcf_norm : ℚ
  years : ℕ
  r : ℚ
  g1 : ℚ
  gT : ℚ
  pv_stage1 : ℚ
  terminal_value : ℚ
  pv_terminal : ℚ
  enterprise_value : ℚ
  net_cash : Option ℚ
  equity_value : ℚ
  yearly_fcfs : List ℚ
deriving DecidableEq

/-- The stage-1 loop of `dcf_two_stage_per_share` (lines 255-261): after
`t` iterations, the current projected FCF, the accumulated present value
and the list of yearly FCFs. -/
def dcfLoop (fcf0 r g1 : ℚ) : ℕ → ℚ × ℚ × List ℚ
  | 0 => (fcf0, 0, [])
  | t + 1 =>
    let p := dcfLoop fcf0 r g1 t
    let fcf := p.1 * (1 + g1)
    (fcf, p.2.1 + fcf / (1 + r) ^ (t + 1), p.2.2 ++ [fcf])

/-- `dcf_two_stage_per_share` (lines 240-284): two-stage DCF per share.
Returns `none` when `fcf_norm` or `shares` is absent, `shares ≤ 0`, or
`r ≤ gT`; otherwise the per-share value and the detail trace.  Python's
`net_cash or 0.0` is `Option.getD 0` (`0.0` is falsy but `or` then
yields `0.0` anyway). -/
def dcf_two_stage_per_share (fcf_norm shares : Option ℚ) (r g1 gT : ℚ)
    (years : ℕ) (net_cash : Option ℚ) : Option (ℚ × DcfDetails) :=
  match fcf_norm, shares with
  | some f, some s =>
    if s ≤ 0 then none
    else if r ≤ gT then none
    else
      let p := dcfLoop f r g1 years
      let terminal := p.1 * (1 + gT) / (r - gT)
      let pv_terminal := terminal / (1 + r) ^ years
      let ev := p.2.1 + pv_terminal
      let eq := ev + net_cash.getD 0
      some (eq / s, ⟨f, years, r, g1, gT, p.2.1, terminal, pv_terminal, ev, net_cash, eq, p.2.2⟩)
  | _, _ => none

/-- The intermediate-quantity trace returned by `epv_per_share`
(lines 304-312). -/
structure EpvDetails where
  ebit_norm : ℚ
  tax_rate : ℚ
  nopat : ℚ
  cap_rate : ℚ
  operating_value : ℚ
  net_cash : Option ℚ
  equity_value : ℚ
deriving DecidableEq

/-- `epv_per_share` (lines 286-313): earnings-power value per share.
`none` when `ebit_norm` or `shares` is absent, `shares ≤ 0`, or
`cap_rate ≤ 0`. -/
def epv_per_share (ebit_norm shares : Option ℚ) (tax_rate cap_rate : ℚ)
    (net_cash : Option ℚ) : Option (ℚ × EpvDetails) :=
  match ebit_norm, shares with
  | some e, some s =>
    if s ≤ 0 then none
    else if cap_rate ≤ 0 then none
    else
      let nopat := e * (1 - tax_rate)
      let op_value := nopat / cap_rate
      let eq_value := op_value + net_cash.getD 0
      some (eq_value / s, ⟨e, tax_rate, nopat, cap_rate, op_value, net_cash, eq_value⟩)
  | _, _ => none

/-- `justified_pb_intrinsic_per_share` (lines 315-339): returns the
per-share value together with the justified multiple `pb_star`.
`none` when book value or ROE is absent or `r ≤ g`; multiple floored to
`1.0` when `roe ≤ g`, else `(roe-g)/(r-g)` clipped to `[0.5, 8.0]`. -/
def justified_pb_intrinsic_per_share (book_value_per_share roe : Option ℚ)
    (r g : ℚ) : Option (ℚ × ℚ) :=
  match book_value_per_share, roe with
  | some b, some ro =>
    if r ≤ g then none
    else if ro ≤ g then some (b * 1, 1)
    else
      let pb_star := min (max ((ro - g) / (r - g)) (1 / 2)) 8
      some (b * pb_star, pb_star)
  | _, _ => none

/-- The per-model guard of the top-level script (lines 480-483, 506-509,
530-533): a computed model value is kept only when present, finite and
strictly positive, otherwise the model entry is set to `None`. -/
def model_value_guard (x : Option ℚ) : Option ℚ :=
  match x with
  | some v => if 0 < v then some v else none
  | none => none

/-- The `net_cash` computation of the top-level script (lines 445-449):
present only when both `totalCash` and `totalDebt` are present, in which
case it is `cash - debt`; otherwise `None`. -/
def net_cash (total_cash total_debt : Option ℚ) : Option ℚ :=
  match total_debt, total_cash with
  | some d, some c => some (c - d)
  | _, _ => none

/-- The three per-model values passed to `blended_fair_value` as the
`models` dict, keyed `"DCF (Growth)"`, `"EPV (Earnings Power)"`,
`"P/B Intrinsic"`. -/
structure ModelValues where
  dcf : Option ℚ
  epv : Option ℚ
  pb : Option ℚ
deriving DecidableEq

/-- The `base` weight table of `blended_fair_value` (lines 350-355), as
`(DCF, EPV, P/B)` in the order of the `names` list (line 358). -/
def base_weights (biz : String) : ℚ × ℚ × ℚ :=
  if biz = "FINANCIAL" then (0, 1 / 4, 3 / 4)
  else if biz = "ASSET_LIGHT" then (13 / 20, 7 / 20, 0)
  else if biz = "CYCLICAL" then (1 / 5, 7 / 10, 1 / 10)
  else if biz = "GENERAL" then (9 / 20, 9 / 20, 1 / 10)
  else (2 / 5, 2 / 5, 1 / 5)

/-- The `valid` list of `blended_fair_value` (line 363): the aligned
`(name, value, weight)` triples restricted to models whose value is
present, finite and strictly positive. -/
def survivors (m : ModelValues) (biz : String) : List (String × ℚ × ℚ) :=
  let w := base_weights biz
  let triples : List (String × Option ℚ × ℚ) :=
    [("DCF (Growth)", m.dcf, w.1),
     ("EPV (Earnings Power)", m.epv, w.2.1),
     ("P/B Intrinsic", m.pb, w.2.2)]
  triples.filterMap (fun t =>
    match t.2.1 with
    | some v => if 0 < v then some (t.1, v, t.2.2) else none
    | none => none)

/-- `total_w` of `blended_fair_value` (line 368): the sum of the base
weights of the surviving models. -/
def total_weight (valid : List (String × ℚ × ℚ)) : ℚ :=
  (valid.map (fun t => t.2.2)).sum

/-- The quadruple returned by `blended_fair_value` (line 384): raw
weighted blend, winsorized blend, weights used and (raw / winsorized)
values used. -/
structure BlendOut where
  raw : Option ℚ
  win : Option ℚ
  weights_used : List (String × ℚ)
  values_used : List (String × ℚ)
  values_wins : List (String × ℚ)
deriving DecidableEq

/-- `blended_fair_value` (lines 341-384): drop absent or non-positive
models, return `None` if none survive or the surviving base weights sum
to `≤ 0`; otherwise the weighted average divided by the surviving weight
total, both raw and after winsorizing the surviving values. -/
def blended_fair_value (m : ModelValues) (biz : String) : BlendOut :=
  let valid := survivors m biz
  if valid = [] then ⟨none, none, [], [], []⟩
  else
    let total_w := total_weight valid
    if total_w ≤ 0 then ⟨none, none, [], [], []⟩
    else
      let raw := (valid.map (fun t => t.2.1 * t.2.2)).sum / total_w
      let v_win := _winsorize (valid.map (fun t => t.2.1)) (1 / 10) (9 / 10)
      let win := ((v_win.zip valid).map (fun p => p.1 * p.2.2.2)).sum / total_w
      ⟨some raw, some win,
        valid.map (fun t => (t.1, t.2.2)),
        valid.map (fun t => (t.1, t.2.1)),
        (valid.zip v_win).map (fun p => (p.1.1, p.2))⟩

/-! ## Theorems -/

/-- C5: for present book value and ROE with `r > g`, the justified
multiple is `1.0` when `ROE ≤ g` and otherwise `(ROE-g)/(r-g)` clamped
to `[0.5, 8.0]`; the per-share value is book value times the multiple,
and the concrete instance `bookValuePerShare=100, ROE=0.12, r=0.12,
g=0.04` yields `100`. -/
theorem c5_justified_pb_formula (b ro r g : ℚ) (hrg : g < r) :
    (ro ≤ g → justified_pb_intrinsic_per_share (some b) (some ro) r g = some (b * 1, 1))
    ∧ (g < ro →
        justified_pb_intrinsic_per_share (some b) (some ro) r g =
          some (b * min (max ((ro - g) / (r - g)) (1 / 2)) 8,
            min (max ((ro - g) / (r - g)) (1 / 2)) 8))
    ∧ justified_pb_intrinsic_per_share (some 100) (some (3 / 25)) (3 / 25) (1 / 25) = some (100, 1) := by
  refine ⟨?_, ?_, by norm_num [justified_pb_intrinsic_per_share, min_def, max_def]⟩
  · intro h
    simp [justified_pb_intrinsic_per_share, hrg.not_le, h]
  · intro h
    simp [justified_pb_intrinsic_per_share, hrg.not_le, h.not_le]

/-- Witness for C5 at a concrete input with `ROE ≤ g`. -/
theorem c5_witness :
    ((1 : ℚ) / 100 ≤ 1 / 50)
    ∧ justified_pb_intrinsic_per_share (some 7) (some (1 / 100)) (1 / 10) (1 / 50) = some (7 * 1, 1) :=
  ⟨by norm_num, (c5_justified_pb_formula 7 (1 / 100) (1 / 10) (1 / 50) (by norm_num)).1 (by norm_num)⟩

/-- C6 (amended): the classifier returns FINANCIAL exactly when the
first condition of `classify_business` holds, namely a financial keyword
in the industry text, or "financial" in the sector text, or "bank" in
the company name; sector text containing "bank", "nbfc", "insurance" or
"lending" does not by itself trigger FINANCIAL. -/
theorem c6_financial_classification_iff (info : TickerInfo) :
    classify_business info = "FINANCIAL" ↔
      fin_trigger (lowerStr (firstNonEmpty [info.industry]))
        (lowerStr (firstNonEmpty [info.sector]))
        (lowerStr (firstNonEmpty [info.longName, info.shortName])) = true := by
  simp only [classify_business]
  split_ifs with h1 h2 h3
  · exact iff_of_true rfl h1
  · exact iff_of_false (by decide) h1
  · exact iff_of_false (by decide) h1
  · exact iff_of_false (by decide) h1

/-- C6 counterexample: a snapshot whose sector text contains "bank"
(and whose industry is empty) is classified GENERAL, not FINANCIAL. -/
theorem c6_counterexample :
    containsSub (lowerStr "Bank") "bank" = true
    ∧ classify_business ⟨some "Bank", some "", none, none⟩ = "GENERAL"
    ∧ classify_business ⟨some "Bank", some "", none, none⟩ ≠ "FINANCIAL" :=
  ⟨by decide, by decide, by decide⟩

/-- C10: whenever the longName — or, when longName is absent, the
shortName — contains "bank" case-insensitively, the classifier returns
FINANCIAL, even when sector and industry contain no classifier keyword;
two snapshots with identical sector and industry can therefore classify
differently. -/
theorem c10_bank_in_name_forces_financial :
    (∀ (sec ind sn : Option String) (ln : String),
        containsSub (lowerStr ln) "bank" = true →
        classify_business ⟨sec, ind, some ln, sn⟩ = "FINANCIAL")
    ∧ (∀ (sec ind : Option String) (sn : String),
        containsSub (lowerStr sn) "bank" = true →
        classify_business ⟨sec, ind, none, some sn⟩ = "FINANCIAL")
    ∧ classify_business ⟨some "Consumer Defensive", some "Discount Stores", some "Canara Bank", none⟩ = "FINANCIAL"
    ∧ classify_business ⟨some "Consumer Defensive", some "Discount Stores", some "Avenue Supermarts", none⟩ = "GENERAL" := by
  refine ⟨?_, ?_, by decide, by decide⟩
  · intro sec ind sn ln h
    have hln : ¬ ln = "" := by
      intro he
      rw [he] at h
      exact absurd h (by decide)
    have hfn : firstNonEmpty [some ln, sn] = ln := by
      simp [firstNonEmpty, hln]
    have htrig : fin_trigger (lowerStr (firstNonEmpty [ind]))
        (lowerStr (firstNonEmpty [sec])) (lowerStr ln) = true := by
      simp [fin_trigger, h]
    simp only [classify_business]
    rw [hfn, htrig]
    simp
  · intro sec ind sn h
    have hsn : ¬ sn = "" := by
      intro he
      rw [he] at h
      exact absurd h (by decide)
    have hfn : firstNonEmpty [none, some sn] = sn := by
      simp [firstNonEmpty, hsn]
    have htrig : fin_trigger (lowerStr (firstNonEmpty [ind]))
        (lowerStr (firstNonEmpty [sec])) (lowerStr sn) = true := by
      simp [fin_trigger, h]
    simp only [classify_business]
    rw [hfn, htrig]
    simp

/-- Witness for C10 at concrete company names: one snapshot with a
longName, one with the longName absent and only a shortName. -/
theorem c10_witness :
    containsSub (lowerStr "State Bank of India") "bank" = true
    ∧ classify_business ⟨none, none, some "State Bank of India", none⟩ = "FINANCIAL"
    ∧ containsSub (lowerStr "Kotak Bank") "bank" = true
    ∧ classify_business ⟨none, none, none, some "Kotak Bank"⟩ = "FINANCIAL" :=
  ⟨by decide,
    c10_bank_in_name_forces_financial.1 none none none "State Bank of India" (by decide),
    by decide,
    c10_bank_in_name_forces_financial.2.1 none none "Kotak Bank" (by decide)⟩

/-- C1 (amended): the blended fair value (winsorized, and likewise the
raw blend) is absent if and only if either no model survives (all three
absent or non-positive) or the surviving models' base weights sum to
`≤ 0` — so a surviving model whose archetype base weight is `0.0` does
not by itself make the blend present. -/
theorem c1_fair_value_absent_iff (m : ModelValues) (biz : String) :
    ((blended_fair_value m biz).raw = none ↔
      survivors m biz = [] ∨ total_weight (survivors m biz) ≤ 0)
    ∧ ((blended_fair_value m biz).win = none ↔
      survivors m biz = [] ∨ total_weight (survivors m biz) ≤ 0) := by
  by_cases h1 : survivors m biz = []
  · simp [blended_fair_value, h1]
  · by_cases h2 : total_weight (survivors m biz) ≤ 0
    · simp [blended_fair_value, h1, h2]
    · simp [blended_fair_value, h1, h2]

/-- C1 counterexample: a FINANCIAL snapshot whose only present model is
DCF (present, finite, strictly positive) still gets an absent fair
value, because the FINANCIAL base weight of DCF is `0.0`. -/
theorem c1_counterexample :
    (⟨some 100, none, none⟩ : ModelValues).dcf = some 100
    ∧ (0 : ℚ) < 100
    ∧ (blended_fair_value ⟨some 100, none, none⟩ "FINANCIAL").raw = none
    ∧ (blended_fair_value ⟨some 100, none, none⟩ "FINANCIAL").win = none := by
  refine ⟨rfl, by norm_num, ?_, ?_⟩ <;>
    norm_num +decide [blended_fair_value, survivors, base_weights, total_weight, List.filterMap]

/-- C2 (amended): when exactly one model survives and its base weight is
strictly positive, both the raw and the winsorized blend equal that
model's value (winsorization of a single value is skipped); a surviving
base weight of `0.0` instead yields an absent blend. -/
theorem c2_single_model_blend (m : ModelValues) (biz : String) (n : String) (v w : ℚ)
    (h : survivors m biz = [(n, v, w)]) (hw : 0 < w) :
    (blended_fair_value m biz).raw = some v ∧ (blended_fair_value m biz).win = some v := by
  have hwne : w ≠ 0 := ne_of_gt hw
  constructor <;>
    simp [blended_fair_value, h, total_weight, _winsorize, hw.not_le, mul_div_assoc,
      div_self hwne]

/-- Witness for C2: CYCLICAL with only EPV present (weight `0.7`). -/
theorem c2_witness :
    survivors ⟨none, some 200, none⟩ "CYCLICAL" = [("EPV (Earnings Power)", 200, 7 / 10)]
    ∧ (0 : ℚ) < 7 / 10
    ∧ (blended_fair_value ⟨none, some 200, none⟩ "CYCLICAL").raw = some 200
    ∧ (blended_fair_value ⟨none, some 200, none⟩ "CYCLICAL").win = some 200 := by
  have hs : survivors ⟨none, some 200, none⟩ "CYCLICAL" = [("EPV (Earnings Power)", 200, 7 / 10)] := by
    norm_num +decide [survivors, base_weights, List.filterMap]
  have hw : (0 : ℚ) < 7 / 10 := by norm_num
  have hc := c2_single_model_blend ⟨none, some 200, none⟩ "CYCLICAL" "EPV (Earnings Power)" 200 (7 / 10) hs hw
  exact ⟨hs, hw, hc.1, hc.2⟩

/-- C2 counterexample: FINANCIAL with exactly one surviving model (DCF,
value `100`, base weight `0.0`): the engine returns an absent blend, not
`100`, so the claim fails for a base weight of `0.0`. -/
theorem c2_counterexample :
    survivors ⟨some 100, none, none⟩ "FINANCIAL" = [("DCF (Growth)", 100, 0)]
    ∧ (blended_fair_value ⟨some 100, none, none⟩ "FINANCIAL").raw ≠ some 100
    ∧ (blended_fair_value ⟨some 100, none, none⟩ "FINANCIAL").win ≠ some 100 := by
  refine ⟨?_, ?_, ?_⟩ <;>
    norm_num +decide [blended_fair_value, survivors, base_weights, total_weight, List.filterMap]

/-- C3 (amended): `weights_used` maps each surviving model to its BASE
archetype weight, not to a renormalized weight: the recorded weights sum
to the surviving base-weight total (renormalization only happens inside
the blend, as division by that total). -/
theorem c3_weights_used_are_base (m : ModelValues) (biz : String)
    (h1 : survivors m biz ≠ []) (h2 : 0 < total_weight (survivors m biz)) :
    (blended_fair_value m biz).weights_used
        = (survivors m biz).map (fun t => (t.1, t.2.2))
    ∧ ((blended_fair_value m biz).weights_used.map Prod.snd).sum
        = total_weight (survivors m biz) := by
  constructor
  · simp [blended_fair_value, h1, h2.not_le]
  · simp only [blended_fair_value]
    simp [h1, h2.not_le]
    simp only [total_weight, List.map_map]
    rfl

/-- Witness for C3: GENERAL with DCF and EPV surviving. -/
theorem c3_witness :
    survivors ⟨some 100, some 200, none⟩ "GENERAL" ≠ []
    ∧ (0 : ℚ) < total_weight (survivors ⟨some 100, some 200, none⟩ "GENERAL")
    ∧ (blended_fair_value ⟨some 100, some 200, none⟩ "GENERAL").weights_used
        = (survivors ⟨some 100, some 200, none⟩ "GENERAL").map (fun t => (t.1, t.2.2))
    ∧ ((blended_fair_value ⟨some 100, some 200, none⟩ "GENERAL").weights_used.map Prod.snd).sum
        = total_weight (survivors ⟨some 100, some 200, none⟩ "GENERAL") := by
  have h1 : survivors ⟨some 100, some 200, none⟩ "GENERAL" ≠ [] := by
    norm_num +decide [survivors, base_weights, List.filterMap]
  have h2 : (0 : ℚ) < total_weight (survivors ⟨some 100, some 200, none⟩ "GENERAL") := by
    norm_num +decide [survivors, base_weights, List.filterMap, total_weight]
  have hc := c3_weights_used_are_base ⟨some 100, some 200, none⟩ "GENERAL" h1 h2
  exact ⟨h1, h2, hc.1, hc.2⟩

/-- C3 counterexample: GENERAL with DCF = 100 and EPV = 200 surviving:
`weights_used` records the base weights `0.45` each, which sum to `0.9`,
not `1.0`, and no entry equals the renormalized weight `0.5`. -/
theorem c3_counterexample :
    (blended_fair_value ⟨some 100, some 200, none⟩ "GENERAL").weights_used
        = [("DCF (Growth)", 9 / 20), ("EPV (Earnings Power)", 9 / 20)]
    ∧ ((blended_fair_value ⟨some 100, some 200, none⟩ "GENERAL").weights_used.map Prod.snd).sum
        = 9 / 10
    ∧ ((9 : ℚ) / 10) ≠ 1
    ∧ ((9 : ℚ) / 20) ≠ (9 / 20) / (9 / 10) := by
  refine ⟨?_, ?_, by norm_num, by norm_num⟩ <;>
    norm_num +decide [blended_fair_value, survivors, base_weights, total_weight, List.filterMap,
      _winsorize, quantileLinear, clip, List.insertionSort, List.orderedInsert, min_def, max_def]

/-- C4 (amended): the raw DCF result is present if and only if
`fcfNormalized` is present, `sharesOutstanding` is present and positive,
and `r > gT` — absence of those inputs or `r ≤ gT` yields `none` with no
exception; the caller's guard additionally keeps only strictly positive
values.  A non-positive `fcfNormalized` alone does NOT force absence. -/
theorem c4_dcf_absence_characterization (fcf shares : Option ℚ) (r g1 gT : ℚ) (y : ℕ)
    (nc : Option ℚ) (x : Option ℚ) (v : ℚ) (hx : model_value_guard x = some v) :
    ((dcf_two_stage_per_share fcf shares r g1 gT y nc).isSome = true ↔
      (∃ f, fcf = some f) ∧ (∃ s, shares = some s ∧ 0 < s) ∧ gT < r)
    ∧ 0 < v := by
  constructor
  · cases fcf with
    | none => simp [dcf_two_stage_per_share]
    | some f =>
      cases shares with
      | none => simp [dcf_two_stage_per_share]
      | some s =>
        simp only [dcf_two_stage_per_share]
        split_ifs with hs hr
        · simp [hs.not_lt]
        · simp [hr.not_lt, not_le.mp hs]
        · simp [not_le.mp hs, not_le.mp hr]
  · cases x with
    | none => simp [model_value_guard] at hx
    | some w =>
      by_cases hw : 0 < w
      · simp [model_value_guard, hw] at hx
        exact hx ▸ hw
      · simp [model_value_guard, hw] at hx

/-- Witness for C4 at concrete inputs. -/
theorem c4_witness :
    (((dcf_two_stage_per_share (some 100) (some 2) (1 / 10) 0 (3 / 100) 1 none).isSome = true ↔
      (∃ f, (some (100 : ℚ)) = some f) ∧ (∃ s, (some (2 : ℚ)) = some s ∧ 0 < s) ∧ (3 : ℚ) / 100 < 1 / 10)
      ∧ (0 : ℚ) < 5) :=
  c4_dcf_absence_characterization (some 100) (some 2) (1 / 10) 0 (3 / 100) 1 none (some 5) 5
    (by norm_num [model_value_guard])

/-- C4 counterexample: with `fcfNormalized = 0` (non-positive) but a
large positive net cash, the DCF result is present and even survives the
positivity guard, contradicting the claim that a non-positive
`fcfNormalized` always yields an absent result. -/
theorem c4_counterexample :
    ((0 : ℚ) ≤ 0)
    ∧ model_value_guard
        ((dcf_two_stage_per_share (some 0) (some 1) (1 / 10) (1 / 10) (3 / 100) 5 (some 1000)).map Prod.fst)
      = some 1000 := by
  refine ⟨le_refl 0, ?_⟩
  norm_num [dcf_two_stage_per_share, dcfLoop, model_value_guard]

/-- C7 (amended): `net_cash` is `cash − debt` when BOTH cash and debt
are present and is absent when either is missing (absent fields do not
default to `0` individually); when the DCF or EPV model succeeds, its
equity value is its operating/enterprise value plus `netCash or 0`, and
the per-share value is equity divided by shares. -/
theorem c7_net_cash_and_equity (c d f s tax cap e r g1 gT : ℚ) (y : ℕ) (nc : Option ℚ)
    (p : ℚ × DcfDetails) (q : ℚ × EpvDetails)
    (hp : dcf_two_stage_per_share (some f) (some s) r g1 gT y nc = some p)
    (hq : epv_per_share (some e) (some s) tax cap nc = some q) :
    net_cash (some c) (some d) = some (c - d)
    ∧ net_cash (some c) none = none
    ∧ net_cash none (some d) = none
    ∧ p.2.equity_value = p.2.enterprise_value + nc.getD 0
    ∧ p.1 = p.2.equity_value / s
    ∧ q.2.equity_value = q.2.operating_value + nc.getD 0
    ∧ q.1 = q.2.equity_value / s := by
  simp only [dcf_two_stage_per_share] at hp
  by_cases hs1 : s ≤ 0
  · rw [if_pos hs1] at hp
    exact absurd hp (by simp)
  · rw [if_neg hs1] at hp
    by_cases hr1 : r ≤ gT
    · rw [if_pos hr1] at hp
      exact absurd hp (by simp)
    · rw [if_neg hr1] at hp
      simp only [epv_per_share] at hq
      rw [if_neg hs1] at hq
      by_cases hc2 : cap ≤ 0
      · rw [if_pos hc2] at hq
        exact absurd hq (by simp)
      · rw [if_neg hc2] at hq
        have hp' := Option.some.inj hp
        have hq' := Option.some.inj hq
        subst hp'
        subst hq'
        exact ⟨rfl, rfl, rfl, rfl, rfl, rfl, rfl⟩

/-- Witness for C7 at concrete inputs where both models succeed. -/
theorem c7_witness :
    net_cash (some 7) (some 3) = some (7 - 3)
    ∧ net_cash (some 7) none = none
    ∧ net_cash none (some 3) = none
    ∧ ((7 : ℚ) / 2, (⟨4, 1, 1, 0, 0, 2, 4, 2, 4, some 3, 7, [4]⟩ : DcfDetails)).2.equity_value
        = ((7 : ℚ) / 2, (⟨4, 1, 1, 0, 0, 2, 4, 2, 4, some 3, 7, [4]⟩ : DcfDetails)).2.enterprise_value
            + (some (3 : ℚ)).getD 0
    ∧ ((7 : ℚ) / 2, (⟨4, 1, 1, 0, 0, 2, 4, 2, 4, some 3, 7, [4]⟩ : DcfDetails)).1
        = ((7 : ℚ) / 2, (⟨4, 1, 1, 0, 0, 2, 4, 2, 4, some 3, 7, [4]⟩ : DcfDetails)).2.equity_value / 2
    ∧ ((5 : ℚ) / 2, (⟨4, 1 / 2, 2, 1, 2, some 3, 5⟩ : EpvDetails)).2.equity_value
        = ((5 : ℚ) / 2, (⟨4, 1 / 2, 2, 1, 2, some 3, 5⟩ : EpvDetails)).2.operating_value
            + (some (3 : ℚ)).getD 0
    ∧ ((5 : ℚ) / 2, (⟨4, 1 / 2, 2, 1, 2, some 3, 5⟩ : EpvDetails)).1
        = ((5 : ℚ) / 2, (⟨4, 1 / 2, 2, 1, 2, some 3, 5⟩ : EpvDetails)).2.equity_value / 2 := by
  have hp : dcf_two_stage_per_share (some 4) (some 2) 1 0 0 1 (some 3)
      = some ((7 : ℚ) / 2, ⟨4, 1, 1, 0, 0, 2, 4, 2, 4, some 3, 7, [4]⟩) := by
    norm_num [dcf_two_stage_per_share, dcfLoop]
  have hq : epv_per_share (some 4) (some 2) (1 / 2) 1 (some 3)
      = some ((5 : ℚ) / 2, ⟨4, 1 / 2, 2, 1, 2, some 3, 5⟩) := by
    norm_num [epv_per_share]
  exact c7_net_cash_and_equity 7 3 4 2 (1 / 2) 1 4 1 0 0 1 (some 3) _ _ hp hq

/-- C7 counterexample: with cash `50` present and debt absent, the code
produces an absent `net_cash` (not `50`), and the DCF then behaves as if
net cash were `0`. -/
theorem c7_counterexample :
    net_cash (some 50) none = none
    ∧ net_cash (some 50) none ≠ some (50 - 0)
    ∧ (dcf_two_stage_per_share (some 4) (some 2) 1 0 0 1 (net_cash (some 50) none)).map Prod.fst
        = (dcf_two_stage_per_share (some 4) (some 2) 1 0 0 1 (some 0)).map Prod.fst := by
  refine ⟨rfl, by simp [net_cash], ?_⟩
  norm_num [dcf_two_stage_per_share, dcfLoop, net_cash]

/-- Clamping to a fixed interval `[lo, hi]` with `lo ≤ hi` is
idempotent. -/
theorem clip_idem (lo hi x : ℚ) (h : lo ≤ hi) :
    clip lo hi (clip lo hi x) = clip lo hi x := by
  unfold clip
  rw [max_eq_left (le_min (le_max_right x lo) h), min_eq_left (min_le_right _ _)]

/-- C9 (amended): re-clipping the winsorized values to the SAME
10th/90th-percentile bounds (those of the original list) changes
nothing; `_winsorize` itself, however, recomputes the percentiles from
its input, so re-applying `_winsorize` does change the values whenever
the surviving values are not all equal. -/
theorem c9_second_clip_fixed_bounds (l : List ℚ) (hl : 2 ≤ l.length)
    (hq : quantileLinear l (1 / 10) ≤ quantileLinear l (9 / 10)) :
    (_winsorize l (1 / 10) (9 / 10)).map
        (clip (quantileLinear l (1 / 10)) (quantileLinear l (9 / 10)))
      = _winsorize l (1 / 10) (9 / 10) := by
  unfold _winsorize
  rw [if_neg (by omega)]
  rw [List.map_map]
  refine List.map_congr_left ?_
  intro x _
  exact clip_idem _ _ _ hq

/-- Witness for C9 on the surviving values `[1, 11, 21]`. -/
theorem c9_witness :
    2 ≤ ([1, 11, 21] : List ℚ).length
    ∧ quantileLinear [1, 11, 21] (1 / 10) ≤ quantileLinear [1, 11, 21] (9 / 10)
    ∧ (_winsorize [1, 11, 21] (1 / 10) (9 / 10)).map
        (clip (quantileLinear [1, 11, 21] (1 / 10)) (quantileLinear [1, 11, 21] (9 / 10)))
      = _winsorize [1, 11, 21] (1 / 10) (9 / 10) := by
  have h1 : 2 ≤ ([1, 11, 21] : List ℚ).length := by simp
  have h2 : quantileLinear [1, 11, 21] (1 / 10) ≤ quantileLinear [1, 11, 21] (9 / 10) := by
    norm_num [quantileLinear, List.insertionSort, List.orderedInsert]
  exact ⟨h1, h2, c9_second_clip_fixed_bounds [1, 11, 21] h1 h2⟩

/-- C9 counterexample: applying `_winsorize` a second time to the
already-winsorized list `[1, 11, 21]` does NOT leave the values
unchanged — the recomputed percentile range is strictly narrower. -/
theorem c9_counterexample :
    _winsorize (_winsorize [1, 11, 21] (1 / 10) (9 / 10)) (1 / 10) (9 / 10)
      ≠ _winsorize [1, 11, 21] (1 / 10) (9 / 10) := by
  norm_num [_winsorize, quantileLinear, clip, List.insertionSort, List.orderedInsert,
    min_def, max_def]

/-- Closed form of the stage-1 loop's running FCF: after `t` iterations
it is `fcf0 * (1+g1)^t`. -/
theorem dcfLoop_fst (f r g1 : ℚ) (t : ℕ) : (dcfLoop f r g1 t).1 = f * (1 + g1) ^ t := by
  induction t with
  | zero => simp [dcfLoop]
  | succ t ih =>
    simp [dcfLoop, ih, pow_succ]
    ring

/-- Closed form of the stage-1 loop's accumulated present value. -/
theorem dcfLoop_pv (f r g1 : ℚ) (t : ℕ) :
    (dcfLoop f r g1 t).2.1 = ∑ i in Finset.range t, f * (1 + g1) ^ (i + 1) / (1 + r) ^ (i + 1) := by
  induction t with
  | zero => simp [dcfLoop]
  | succ t ih =>
    rw [Finset.sum_range_succ, ← ih]
    simp [dcfLoop, dcfLoop_fst, pow_succ]
    ring

/-- With present inputs, positive shares and `r > gT`, the DCF returns
its explicit stage-1 + terminal + net-cash value per share. -/
theorem dcf_success (f s r g1 gT : ℚ) (y : ℕ) (nc : Option ℚ) (hs : 0 < s) (hr : gT < r) :
    dcf_two_stage_per_share (some f) (some s) r g1 gT y nc =
      some (((dcfLoop f r g1 y).2.1 + (dcfLoop f r g1 y).1 * (1 + gT) / (r - gT) / (1 + r) ^ y + nc.getD 0) / s,
        ⟨f, y, r, g1, gT, (dcfLoop f r g1 y).2.1, (dcfLoop f r g1 y).1 * (1 + gT) / (r - gT),
         (dcfLoop f r g1 y).1 * (1 + gT) / (r - gT) / (1 + r) ^ y,
         (dcfLoop f r g1 y).2.1 + (dcfLoop f r g1 y).1 * (1 + gT) / (r - gT) / (1 + r) ^ y,
         nc, (dcfLoop f r g1 y).2.1 + (dcfLoop f r g1 y).1 * (1 + gT) / (r - gT) / (1 + r) ^ y + nc.getD 0,
         (dcfLoop f r g1 y).2.2⟩) := by
  simp only [dcf_two_stage_per_share]
  rw [if_neg (not_le.mpr hs), if_neg (not_le.mpr hr)]

/-- C8: for valid DCF inputs (positive normalized FCF and shares,
`0 < r`, `0 ≤ gT < r`, non-negative stage-1 growth, at least one stage-1
year), the per-share DCF value is strictly increasing in the stage-1
growth rate `g1`. -/
theorem c8_dcf_monotone_in_g1 (f s r g1 g1' gT : ℚ) (y : ℕ) (nc : Option ℚ)
    (hf : 0 < f) (hs : 0 < s) (hr : 0 < r) (hgT : 0 ≤ gT) (hrgT : gT < r)
    (hg : 0 ≤ g1) (hlt : g1 < g1') (hy : 1 ≤ y) :
    ∃ p q, dcf_two_stage_per_share (some f) (some s) r g1 gT y nc = some p
      ∧ dcf_two_stage_per_share (some f) (some s) r g1' gT y nc = some q
      ∧ p.1 < q.1 := by
  refine ⟨_, _, dcf_success f s r g1 gT y nc hs hrgT, dcf_success f s r g1' gT y nc hs hrgT, ?_⟩
  dsimp only
  rw [dcfLoop_pv, dcfLoop_pv, dcfLoop_fst, dcfLoop_fst]
  have h1r : (0 : ℚ) < 1 + r := by linarith
  have hg1 : (0 : ℚ) ≤ 1 + g1 := by linarith
  have hg1' : (1 : ℚ) + g1 ≤ 1 + g1' := by linarith
  have hrg : (0 : ℚ) < r - gT := by linarith
  have hA : (∑ i in Finset.range y, f * (1 + g1) ^ (i + 1) / (1 + r) ^ (i + 1))
      < ∑ i in Finset.range y, f * (1 + g1') ^ (i + 1) / (1 + r) ^ (i + 1) := by
    apply Finset.sum_lt_sum
    · intro i _
      have hp : (0 : ℚ) < (1 + r) ^ (i + 1) := pow_pos h1r _
      have hpow : (1 + g1) ^ (i + 1) ≤ (1 + g1') ^ (i + 1) := pow_le_pow_left₀ hg1 hg1' _
      exact (div_le_div_iff_of_pos_right hp).mpr (mul_le_mul_of_nonneg_left hpow hf.le)
    · refine ⟨0, Finset.mem_range.mpr (by omega), ?_⟩
      have hp : (0 : ℚ) < (1 + r) ^ (0 + 1) := pow_pos h1r _
      have hpow : (1 + g1) ^ (0 + 1) < (1 + g1') ^ (0 + 1) := by
        simpa using (by linarith : (1 : ℚ) + g1 < 1 + g1')
      exact (div_lt_div_iff_of_pos_right hp).mpr ((mul_lt_mul_left hf).mpr hpow)
  have hB : f * (1 + g1) ^ y * (1 + gT) / (r - gT) / (1 + r) ^ y
      ≤ f * (1 + g1') ^ y * (1 + gT) / (r - gT) / (1 + r) ^ y := by
    have hpy : (0 : ℚ) < (1 + r) ^ y := pow_pos h1r _
    have hpow : (1 + g1) ^ y ≤ (1 + g1') ^ y := pow_le_pow_left₀ hg1 hg1' _
    have h3 : f * (1 + g1) ^ y * (1 + gT) ≤ f * (1 + g1') ^ y * (1 + gT) :=
      mul_le_mul_of_nonneg_right (mul_le_mul_of_nonneg_left hpow hf.le) (by linarith)
    exact (div_le_div_iff_of_pos_right hpy).mpr ((div_le_div_iff_of_pos_right hrg).mpr h3)
  exact (div_lt_div_iff_of_pos_right hs).mpr (by linarith)

/-- Witness for C8 at concrete valid inputs (`g1 = 0` versus `g1 = 0.1`). -/
theorem c8_witness :
    (0 : ℚ) < 100 ∧ (0 : ℚ) < 1 ∧ (0 : ℚ) < 1 / 10 ∧ (0 : ℚ) ≤ 3 / 100
    ∧ (3 : ℚ) / 100 < 1 / 10 ∧ (0 : ℚ) ≤ 0 ∧ (0 : ℚ) < 1 / 10 ∧ (1 : ℕ) ≤ 1
    ∧ ∃ p q, dcf_two_stage_per_share (some 100) (some 1) (1 / 10) 0 (3 / 100) 1 none = some p
        ∧ dcf_two_stage_per_share (some 100) (some 1) (1 / 10) (1 / 10) (3 / 100) 1 none = some q
        ∧ p.1 < q.1 :=
  ⟨by norm_num, by norm_num, by norm_num, by norm_num, by norm_num, le_refl 0, by norm_num,
    le_refl 1,
    c8_dcf_monotone_in_g1 100 1 (1 / 10) 0 (1 / 10) (3 / 100) 1 none (by norm_num) (by norm_num)
      (by norm_num) (by norm_num) (by norm_num) (le_refl 0) (by norm_num) (le_refl 1)⟩
